import Mathlib

/-!
Shallow embedding of `extract_clash_profile` (src/src/main.rs): a pipeline that
decodes a base64 subscription payload into proxy links, parses each link into a
typed descriptor (`ss://` or `vmess://`), classifies descriptors by country
tokens in their display names, groups them, and serializes a Clash routing
configuration document.

Rust machine integers are modelled as `Nat`/`Int` with explicit bounds, bytes
as `Nat` (values < 256), fallible operations as `Option`, and operations that
can panic (`unwrap`, `unimplemented!`) as an explicit `panicked` outcome.
-/

set_option maxRecDepth 40000

namespace ExtractClash

/-! ### Bytes and text primitives

Models of the library routines the source calls: `base64::decode` (standard
alphabet, canonical trailing bits, padding optional as in base64 0.x),
`String::from_utf8`, `str::lines`, `<i32 as FromStr>::from_str`, and
`urlencoding::decode`. -/

/-- Value of one standard-alphabet base64 symbol. -/
def b64Val (c : Char) : Option Nat :=
  if 'A' ≤ c ∧ c ≤ 'Z' then some (c.toNat - 65)
  else if 'a' ≤ c ∧ c ≤ 'z' then some (c.toNat - 97 + 26)
  else if '0' ≤ c ∧ c ≤ '9' then some (c.toNat - 48 + 52)
  else if c = '+' then some 62
  else if c = '/' then some 63
  else none

/-- Model of `base64::decode` (standard alphabet): groups of four symbols give
three bytes; the final group may be `xy==`/`xyz=` or an unpadded two or three
symbol remainder; non-canonical trailing bits, stray symbols and a remainder of
one symbol are decode errors. -/
def base64DecodeChunks : List Char → Option (List Nat)
  | [] => some []
  | [c0, c1] => do
      let v0 ← b64Val c0
      let v1 ← b64Val c1
      if v1 % 16 = 0 then some [v0 * 4 + v1 / 16] else none
  | [c0, c1, c2] => do
      let v0 ← b64Val c0
      let v1 ← b64Val c1
      let v2 ← b64Val c2
      if v2 % 4 = 0 then some [v0 * 4 + v1 / 16, (v1 % 16) * 16 + v2 / 4] else none
  | c0 :: c1 :: c2 :: c3 :: rest => do
      let v0 ← b64Val c0
      let v1 ← b64Val c1
      if c2 = '=' then
        if c3 = '=' ∧ rest = [] ∧ v1 % 16 = 0 then some [v0 * 4 + v1 / 16] else none
      else do
        let v2 ← b64Val c2
        if c3 = '=' then
          if rest = [] ∧ v2 % 4 = 0 then
            some [v0 * 4 + v1 / 16, (v1 % 16) * 16 + v2 / 4]
          else none
        else do
          let v3 ← b64Val c3
          let bs ← base64DecodeChunks rest
          some ([v0 * 4 + v1 / 16, (v1 % 16) * 16 + v2 / 4, (v2 % 4) * 64 + v3] ++ bs)
  | _ => none

def base64Decode (s : String) : Option (List Nat) :=
  base64DecodeChunks s.toList

/-- Model of the source's `.into_iter().map(|u| u as char).collect()` in
`get_servers`: every byte becomes the character of the same code point
(a latin-1 read, not a UTF-8 one). -/
def latin1OfBytes (bs : List Nat) : String :=
  String.mk (bs.map (fun b => Char.ofNat b))

/-- Model of `str::split_inclusive('\n')`: pieces keep their terminating
newline; an empty input gives no pieces. -/
def splitInclusiveNL : List Char → List (List Char)
  | [] => []
  | c :: rest =>
      if c = '\n' then [c] :: splitInclusiveNL rest
      else
        match splitInclusiveNL rest with
        | [] => [[c]]
        | p :: ps => (c :: p) :: ps

/-- Per-line cleanup of `str::lines`: strip one trailing `'\n'`, and then one
trailing `'\r'` only when a `'\n'` was stripped. -/
def linesMap (p : List Char) : List Char :=
  match p.getLast? with
  | some '\n' =>
      let q := p.dropLast
      match q.getLast? with
      | some '\r' => q.dropLast
      | _ => q
  | _ => p

/-- Model of Rust `str::lines`. Empty interior lines are kept; only the final
line terminator produces no extra line. -/
def rustLines (s : String) : List String :=
  (splitInclusiveNL s.toList).map (fun p => String.mk (linesMap p))

def decDigit (c : Char) : Option Nat :=
  if '0' ≤ c ∧ c ≤ '9' then some (c.toNat - 48) else none

/-- Value of a non-empty all-decimal digit string. -/
def decNat : List Char → Option Nat
  | [] => none
  | [c] => decDigit c
  | c :: rest => do
      let d ← decDigit c
      let r ← decNat rest
      some (d * 10 ^ rest.length + r)

/-- Model of `<i32 as FromStr>::from_str`: optional sign, one or more decimal
digits, value within `[-2^31, 2^31 - 1]`; anything else is an error. -/
def parseI32 (s : String) : Option Int :=
  match s.toList with
  | '-' :: rest => do
      let n ← decNat rest
      if n ≤ 2 ^ 31 then some (-(n : Int)) else none
  | '+' :: rest => do
      let n ← decNat rest
      if n ≤ 2 ^ 31 - 1 then some (n : Int) else none
  | cs => do
      let n ← decNat cs
      if n ≤ 2 ^ 31 - 1 then some (n : Int) else none

/-- UTF-8 encoding of one character. -/
def utf8EncodeChar (c : Char) : List Nat :=
  let n := c.toNat
  if n < 0x80 then [n]
  else if n < 0x800 then [0xC0 + n / 64, 0x80 + n % 64]
  else if n < 0x10000 then
    [0xE0 + n / 4096, 0x80 + n / 64 % 64, 0x80 + n % 64]
  else
    [0xF0 + n / 0x40000, 0x80 + n / 4096 % 64, 0x80 + n / 64 % 64, 0x80 + n % 64]

/-- UTF-8 bytes of a string (how Rust stores `str` data). -/
def utf8Encode (s : String) : List Nat :=
  (s.toList.map utf8EncodeChar).flatten

def isCont (b : Nat) : Bool := 0x80 ≤ b ∧ b < 0xC0

/-- Validating UTF-8 decoder (model of `String::from_utf8`): rejects stray
continuation bytes, overlong forms, surrogates and code points above
`0x10FFFF`. -/
def utf8Decode : List Nat → Option (List Char)
  | [] => some []
  | b :: rest =>
      if b < 0x80 then do
        let cs ← utf8Decode rest
        some (Char.ofNat b :: cs)
      else if b < 0xC2 then none
      else if b < 0xE0 then
        match rest with
        | b1 :: rest1 =>
            if isCont b1 then do
              let cs ← utf8Decode rest1
              some (Char.ofNat ((b - 0xC0) * 64 + (b1 - 0x80)) :: cs)
            else none
        | [] => none
      else if b < 0xF0 then
        match rest with
        | b1 :: b2 :: rest2 =>
            if isCont b1 ∧ isCont b2 then
              let n := (b - 0xE0) * 4096 + (b1 - 0x80) * 64 + (b2 - 0x80)
              if 0x800 ≤ n ∧ ¬(0xD800 ≤ n ∧ n < 0xE000) then do
                let cs ← utf8Decode rest2
                some (Char.ofNat n :: cs)
              else none
            else none
        | _ => none
      else if b < 0xF5 then
        match rest with
        | b1 :: b2 :: b3 :: rest3 =>
            if isCont b1 ∧ isCont b2 ∧ isCont b3 then
              let n := (b - 0xF0) * 0x40000 + (b1 - 0x80) * 4096 +
                (b2 - 0x80) * 64 + (b3 - 0x80)
              if 0x10000 ≤ n ∧ n ≤ 0x10FFFF then do
                let cs ← utf8Decode rest3
                some (Char.ofNat n :: cs)
              else none
            else none
        | _ => none
      else none

def hexValByte (b : Nat) : Option Nat :=
  if 48 ≤ b ∧ b ≤ 57 then some (b - 48)
  else if 97 ≤ b ∧ b ≤ 102 then some (b - 97 + 10)
  else if 65 ≤ b ∧ b ≤ 70 then some (b - 65 + 10)
  else none

/-- Percent-decoding on bytes (model of the scan inside `urlencoding::decode`):
`%` followed by two hex digits becomes one byte; a malformed sequence passes
the `%` through unchanged and rescans from the next byte. -/
def pctDecodeBytes : List Nat → List Nat
  | [] => []
  | [b] => [b]
  | [b, b1] => b :: [b1]
  | b :: b1 :: b2 :: rest =>
      if b = 37 then
        match hexValByte b1, hexValByte b2 with
        | some h, some l => (h * 16 + l) :: pctDecodeBytes rest
        | _, _ => b :: pctDecodeBytes (b1 :: b2 :: rest)
      else b :: pctDecodeBytes (b1 :: b2 :: rest)

/-- Model of `urlencoding::decode`: percent-decode the UTF-8 bytes of the
input, then require the result to be valid UTF-8. -/
def percentDecode (s : String) : Option String :=
  (utf8Decode (pctDecodeBytes (utf8Encode s))).map String.mk

/-! ### Data model

The descriptor types of main.rs. `Vmess.port` is a `String` in the source
(`port: String`); `ShadowSocks.port` is an `i32`, modelled as `Int` (its
bounds are established where the source parses it). -/

structure Vmess where
  version : String
  name : String
  host : String
  port : String
  uuid : String
  alter_id : String
deriving DecidableEq, Repr

structure ShadowSocks where
  name : String
  host : String
  port : Int
  cipher : String
  password : String
  udp : Bool
deriving DecidableEq, Repr

inductive Server where
  | vmess (v : Vmess)
  | ss (s : ShadowSocks)
deriving DecidableEq, Repr

def Server.name : Server → String
  | .vmess v => v.name
  | .ss s => s.name

/-- Outcome of a fallible Rust computation: a returned `Ok`, a returned `Err`,
or a panic (`unwrap` on `None`/`Err`, `unimplemented!`). -/
inductive PResult (α : Type) where
  | ok (a : α)
  | err (e : String)
  | panicked (msg : String)
deriving DecidableEq, Repr

def PResult.isFailure : PResult α → Bool
  | .ok _ => false
  | _ => true

def PResult.isReturnedErr : PResult α → Bool
  | .err _ => true
  | _ => false

def PResult.isPanic : PResult α → Bool
  | .panicked _ => true
  | _ => false

/-! ### Link parser (`impl FromStr for Server`) -/

/-- Model of `RE_PROTO.captures`, pattern `^(?P<p>ss|vmess)://(?P<body>.*)`:
anchored at the start, so it succeeds exactly on an `ss://` or `vmess://`
prefix; `.` does not match `'\n'`, so the `body` capture stops at the first
newline. -/
def reProtoCaptures (s : String) : Option (String × String) :=
  let cs := s.toList
  if List.isPrefixOf "ss://".toList cs then
    some ("ss", String.mk ((cs.drop 5).takeWhile (fun c => c ≠ '\n')))
  else if List.isPrefixOf "vmess://".toList cs then
    some ("vmess", String.mk ((cs.drop 8).takeWhile (fun c => c ≠ '\n')))
  else none

/-- Index of the last occurrence of `c` in `cs`, if any. -/
def lastIdx (cs : List Char) (c : Char) : Option Nat :=
  match (cs.reverse).findIdx? (fun x => x = c) with
  | some k => some (cs.length - 1 - k)
  | none => none

/-- Model of `RE_SS.captures`, pattern
`(?P<cipher>.*)@(?P<server>.*)#(?P<name>.*)`, on the newline-free bodies
produced by `reProtoCaptures`: greedy matching takes `name` after the last
`'#'`, `cipher` before the last `'@'` preceding it, and `server` between
them; no match when those delimiters are absent. -/
def reSSCaptures (body : String) : Option (String × String × String) :=
  let cs := body.toList
  match lastIdx cs '#' with
  | none => none
  | some j =>
      match lastIdx (cs.take j) '@' with
      | none => none
      | some i =>
          some (String.mk (cs.take i),
                String.mk ((cs.take j).drop (i + 1)),
                String.mk (cs.drop (j + 1)))

/-- Model of `str::split_once(c)`: split at the first occurrence of `c`. -/
def splitOnce (c : Char) (s : String) : Option (String × String) :=
  let cs := s.toList
  match cs.findIdx? (fun x => x = c) with
  | none => none
  | some i => some (String.mk (cs.take i), String.mk (cs.drop (i + 1)))

/-- Parse of the body of an `ss://` link (the `"ss"` arm of
`Server::from_str`): regex capture, base64+UTF-8 decode of the cipher
segment, `split_once(':')` into cipher and password, `split_once(':')` of the
server segment into host and port, `i32` parse of the port, percent-decode of
the name; every failure is an `unwrap` panic. `udp` is always `true`. -/
def parseSSBody (body : String) : PResult Server :=
  match reSSCaptures body with
  | none => .panicked "ss regex: no captures"
  | some (cipherB64, server, rawName) =>
      match base64Decode cipherB64 with
      | none => .panicked "cipher base64 decode"
      | some bytes =>
          match utf8Decode bytes with
          | none => .panicked "cipher utf8"
          | some cipherChars =>
              match splitOnce ':' (String.mk cipherChars) with
              | none => .panicked "cipher split_once"
              | some (cipher, password) =>
                  match splitOnce ':' server with
                  | none => .panicked "server split_once"
                  | some (host, portStr) =>
                      match parseI32 portStr with
                      | none => .panicked "port parse"
                      | some port =>
                          match percentDecode rawName with
                          | none => .panicked "name percent decode"
                          | some name =>
                              .ok (.ss ⟨name, host, port, cipher, password, true⟩)

def lbrace : Char := Char.ofNat 123
def rbrace : Char := Char.ofNat 125

def skipWs : List Char → List Char
  | [] => []
  | c :: rest =>
      if c = ' ' ∨ c = '\t' ∨ c = '\n' ∨ c = '\r' then skipWs rest else c :: rest

def jsonEscape (c : Char) : Option Char :=
  if c = '"' then some '"'
  else if c = '\\' then some '\\'
  else if c = '/' then some '/'
  else if c = 'n' then some '\n'
  else if c = 't' then some '\t'
  else if c = 'r' then some '\r'
  else if c = 'b' then some (Char.ofNat 8)
  else if c = 'f' then some (Char.ofNat 12)
  else none

def hexVal (c : Char) : Option Nat := hexValByte c.toNat

/-- Body of a JSON string after its opening quote: returns the decoded
characters and the input after the closing quote. `\u` escapes for surrogate
halves are outside the model. -/
def parseJsonStringAux : List Char → Option (List Char × List Char)
  | [] => none
  | c :: rest =>
      if c = '"' then some ([], rest)
      else if c = '\\' then
        match rest with
        | [] => none
        | e :: rest1 =>
            if e = 'u' then
              match rest1 with
              | h1 :: h2 :: h3 :: h4 :: rest2 => do
                  let a ← hexVal h1
                  let b ← hexVal h2
                  let c3 ← hexVal h3
                  let d ← hexVal h4
                  let n := a * 4096 + b * 256 + c3 * 16 + d
                  if 0xD800 ≤ n ∧ n < 0xE000 then none
                  else do
                    let (s, r) ← parseJsonStringAux rest2
                    some (Char.ofNat n :: s, r)
              | _ => none
            else do
              let ec ← jsonEscape e
              let (s, r) ← parseJsonStringAux rest1
              some (ec :: s, r)
      else if c.toNat < 0x20 then none
      else do
        let (s, r) ← parseJsonStringAux rest
        some (c :: s, r)

/-- Key/value pairs of a flat JSON object whose values are strings, starting
at a key and consuming through the closing brace; `fuel` bounds the loop by
the input length. -/
def parsePairsAux : Nat → List Char → Option (List (String × String) × List Char)
  | 0, _ => none
  | fuel + 1, cs => do
      let (k, r1) ← match skipWs cs with
        | q :: rest => if q = '"' then parseJsonStringAux rest else none
        | [] => none
      let r2 ← match skipWs r1 with
        | c :: rest => if c = ':' then some rest else none
        | [] => none
      let (v, r3) ← match skipWs r2 with
        | q :: rest => if q = '"' then parseJsonStringAux rest else none
        | [] => none
      match skipWs r3 with
      | c :: rest =>
          if c = ',' then do
            let (ps, r4) ← parsePairsAux fuel rest
            some ((String.mk k, String.mk v) :: ps, r4)
          else if c = rbrace then some ([(String.mk k, String.mk v)], rest)
          else none
      | [] => none

/-- Model of `serde_json::from_str` restricted to the wire shape the pipeline
feeds it: one flat JSON object whose values are all strings. -/
def parseFlatJsonObject (s : String) : Option (List (String × String)) :=
  match skipWs s.toList with
  | c :: rest =>
      if c = lbrace then
        match skipWs rest with
        | c1 :: rest1 =>
            if c1 = rbrace then
              if skipWs rest1 = [] then some [] else none
            else do
              let (ps, r) ← parsePairsAux (c1 :: rest1).length (c1 :: rest1)
              if skipWs r = [] then some ps else none
        | [] => none
      else none
  | [] => none

def lookupField (ps : List (String × String)) (k : String) : Option String :=
  (ps.find? (fun p => p.1 = k)).map Prod.snd

/-- Model of deserializing the `Vmess` struct: the renamed fields `v`, `ps`,
`add`, `port`, `id`, `aid` must all be present as JSON strings; extra pairs
are ignored. -/
def vmessFromJson (s : String) : Option Vmess := do
  let ps ← parseFlatJsonObject s
  let version ← lookupField ps "v"
  let name ← lookupField ps "ps"
  let host ← lookupField ps "add"
  let port ← lookupField ps "port"
  let uuid ← lookupField ps "id"
  let alter_id ← lookupField ps "aid"
  some ⟨version, name, host, port, uuid, alter_id⟩

/-- Parse of the body of a `vmess://` link (the `"vmess"` arm of
`Server::from_str`): base64+UTF-8 decode, then JSON deserialization; every
failure is an `unwrap` panic. -/
def parseVmessBody (body : String) : PResult Server :=
  match base64Decode body with
  | none => .panicked "vmess base64 decode"
  | some bytes =>
      match utf8Decode bytes with
      | none => .panicked "vmess utf8"
      | some bodyChars =>
          match vmessFromJson (String.mk bodyChars) with
          | none => .panicked "vmess json"
          | some v => .ok (.vmess v)

/-- Model of `Server::from_str`: `RE_PROTO.captures(s).unwrap()` panics when
the scheme regex does not match; then the `"ss"` and `"vmess"` arms dispatch
on the scheme, and the remaining `Err("unexpected proto")` arm is kept as in
the source. -/
def Server.fromStr (s : String) : PResult Server :=
  match reProtoCaptures s with
  | none => .panicked "proto regex: no captures"
  | some (proto, body) =>
      if proto = "ss" then parseSSBody body
      else if proto = "vmess" then parseVmessBody body
      else .err "unexpected proto"

/-! ### Serialization (`impl ToString`) -/

/-- Model of `impl ToString for ShadowSocks` (a `format!` with the fields
spliced in verbatim; `\x7b`/`\x7d` are the literal braces of the format
string). -/
def ShadowSocks.toString (s : ShadowSocks) : String :=
  "\x7b name: '" ++ s.name ++ "', type: ss, server: " ++ s.host ++ ", port: " ++
    ToString.toString s.port ++ ", cipher: " ++ s.cipher ++ ", password: " ++
    s.password ++ ", udp: " ++ ToString.toString s.udp ++ " \x7d"

/-- Model of `impl ToString for Vmess`. -/
def Vmess.toString (v : Vmess) : String :=
  "\x7b name: '" ++ v.name ++ "', type: vmess, server: " ++ v.host ++ ", port: " ++
    v.port ++ ", uuid: " ++ v.uuid ++ ", alterId: " ++ v.alter_id ++
    ", cipher: auto, udp: true \x7d"

/-- Model of `impl ToString for Server`. -/
def Server.toString : Server → String
  | .vmess v => v.toString
  | .ss s => s.toString

/-! ### Country classifier and group aggregator -/

/-- The alternation of `RE_COUNTRIES`, in source order:
`(?P<country>香港|美国|新加坡|台湾|日本)`. -/
def countryTokens : List String := ["香港", "美国", "新加坡", "台湾", "日本"]

/-- Leftmost match of `RE_COUNTRIES` in a character list: the token whose
occurrence starts earliest (the five tokens begin with five distinct
characters, so at most one can match at a given position). -/
def findCountry : List Char → Option String
  | [] => none
  | c :: rest =>
      match countryTokens.find? (fun t => List.isPrefixOf t.toList (c :: rest)) with
      | some t => some t
      | none => findCountry rest

/-- Model of the classification in `write_proxies`:
`RE_COUNTRIES.captures(&name).map_or("others", ...)`. -/
def classify (name : String) : String :=
  (findCountry name.toList).getD "others"

/-- The group table: the country→names `HashMap` modelled as an
insertion-ordered association list (the map contents are exactly the
source's; only an iteration order over it is chosen separately). -/
abbrev Groups := List (String × List String)

/-- Model of `groups.entry(country).or_insert(vec![]).push(name)`. -/
def addToGroup : Groups → String → String → Groups
  | [], k, v => [(k, [v])]
  | (k', vs) :: rest, k, v =>
      if k' = k then (k', vs ++ [v]) :: rest
      else (k', vs) :: addToGroup rest k v

/-- One rendered proxy entry line of the `proxies:` section. -/
def proxyLine (s : Server) : String :=
  "    - " ++ s.toString ++ "\n"

/-- Model of the loop of `write_proxies` after `get_servers` succeeded: the
first two descriptors are dropped (`skip(2)`); each retained descriptor
contributes one proxy line and its name is appended to its country's bucket.
Returns the text written for the `proxies:` section and the group table. -/
def writeProxies (servers : List Server) : String × Groups :=
  let retained := servers.drop 2
  ("\nproxies:\n" ++ String.join (retained.map proxyLine),
   retained.foldl (fun g s => addToGroup g (classify s.name) s.name) [])

/-! ### Config emitter (`write_rules`) -/

/-- Model of the country-tag translation `match` in `write_rules`; `none` is
the `unimplemented!("countries unknown")` panic. -/
def countryEn (k : String) : Option String :=
  if k = "香港" then some "HongKong"
  else if k = "美国" then some "US"
  else if k = "新加坡" then some "Singapore"
  else if k = "台湾" then some "Taiwan"
  else if k = "日本" then some "Japan"
  else if k = "others" then some "others"
  else none

/-- Model of the member rendering: each name quoted, joined by `", "`. -/
def quoteJoin (names : List String) : String :=
  String.intercalate ", " (names.map (fun n => "'" ++ n ++ "'"))

def directLine : String :=
  "    - \x7b name: 'Direct', type: select, proxies: [DIRECT] \x7d\n"

def rejectLine : String :=
  "    - \x7b name: 'Reject', type: select, proxies: [REJECT,DIRECT] \x7d\n"

def unmatchedLine : String :=
  "    - \x7b name: 'Unmatched', type: select, proxies: ['HongKong'] \x7d\n"

def choiceLine : String :=
  "    - \x7b name: 'Choice', type: select, proxies: ['HongKong'] \x7d\n"

def telegramLine : String :=
  "    - \x7b name: 'telegram', type: select, proxies: ['US'] \x7d\n"

/-- One rendered selector-group line for a country bucket. -/
def groupLine (en proxies : String) : String :=
  "    - \x7b name: '" ++ en ++ "', type: select, proxies: [" ++ proxies ++ "] \x7d\n"

/-- Model of the `groups.into_iter().map(...).collect()` translation in
`write_rules`, over the table in a given iteration order: `none` when some
key hits the `unimplemented!` arm. -/
def translateGroups : List (String × List String) → Option (List (String × String))
  | [] => some []
  | (k, v) :: rest => do
      let en ← countryEn k
      let tl ← translateGroups rest
      some ((en, quoteJoin v) :: tl)

/-- Model of the `proxy-groups:` part of `write_rules`, taking the group
table in the `HashMap` iteration order of this run. Returns the text written
and a success flag: on an unknown country tag the `unimplemented!` panic
fires after the `Direct` and `Reject` lines are written but before anything
else. The source emits `Unmatched` before the country buckets. -/
def proxyGroupsSection (order : List (String × List String)) : String × Bool :=
  let hdr := "\nproxy-groups:\n" ++ directLine ++ rejectLine
  match translateGroups order with
  | none => (hdr, false)
  | some tgs =>
      (hdr ++ unmatchedLine ++
        String.join (tgs.map (fun p => groupLine p.1 p.2)) ++
        choiceLine ++ telegramLine, true)

/-- Model of `write_rules`: the `proxy-groups:` section followed by the
`rules:` header and the opaque rules block. -/
def writeRules (order : List (String × List String)) (rules : String) : String × Bool :=
  let (g, success) := proxyGroupsSection order
  if success then (g ++ "\nrules:\n" ++ rules, true) else (g, false)

/-! ### The run (`main` and `get_servers`) -/

/-- Lines of the decoded envelope: the model of `get_servers` after the HTTP
fetch, starting from the response body text. `base64::decode` failure is an
`unwrap` panic; the decoded bytes are read as latin-1 (`u as char`) and split
by `str::lines`. -/
def envelopeLines (body : String) : Option (List String) :=
  (base64Decode body).map (fun bs => rustLines (latin1OfBytes bs))

/-- The parse loop of `get_servers`: `line.parse().unwrap()` on each line, so
the first returned `Err` or panic aborts the whole run. -/
def parseLines : List String → PResult (List Server)
  | [] => .ok []
  | l :: rest =>
      match Server.fromStr l with
      | .ok s =>
          match parseLines rest with
          | .ok ss => .ok (s :: ss)
          | .err e => .err e
          | .panicked m => .panicked m
      | .err e => .panicked ("unwrap on Err: " ++ e)
      | .panicked m => .panicked m

/-- Model of `get_servers` from the fetched body text onward. -/
def getServers (body : String) : PResult (List Server) :=
  match envelopeLines body with
  | none => .panicked "envelope base64 decode"
  | some ls => parseLines ls

/-- Model of `main` after the `.env` setup, as a function of the opaque
`include_bytes!` payloads (`staticConfig`, `rules`, which are not under
`src/`), a choice `iter` of `HashMap` iteration order for the group table,
and the fetched body text. Returns the bytes present in the output file when
the process ends and whether the run completed: `write_static_configs` runs
before `get_servers`, so an abort during decode or parse leaves exactly the
static preamble in the file. -/
def runModelWith (iter : Groups → List (String × List String))
    (staticConfig rules body : String) : String × Bool :=
  match getServers body with
  | .ok servers =>
      let (proxTxt, groups) := writeProxies servers
      let (rulesTxt, success) := writeRules (iter groups) rules
      (staticConfig ++ proxTxt ++ rulesTxt, success)
  | _ => (staticConfig, false)

/-- The run with the group table iterated in the model's insertion order (one
possible `HashMap` iteration order). -/
def runModel (staticConfig rules body : String) : String × Bool :=
  runModelWith id staticConfig rules body

/-- Modelled from the spec: the `proxy-groups:` section in the order §4.5 of
the spec (and claim C3) describes — `Direct`, `Reject`, then one group per
populated country bucket, then the trailing `Unmatched`, `Choice`,
`telegram`. Written for comparison with the source-derived
`proxyGroupsSection`. -/
def claimedGroupsSection (order : List (String × List String)) : Option String := do
  let tgs ← translateGroups order
  some ("\nproxy-groups:\n" ++ directLine ++ rejectLine ++
    String.join (tgs.map (fun p => groupLine p.1 p.2)) ++
    unmatchedLine ++ choiceLine ++ telegramLine)

/-! ### Helper lemmas -/

theorem string_data_append (a b : String) : (a ++ b).data = a.data ++ b.data := by
  cases a; cases b; rfl

theorem string_eq_of_data {a b : String} (h : a.data = b.data) : a = b := by
  cases a; cases b; cases h; rfl

/-- A run whose envelope decode or line parse failed writes exactly the
static preamble. -/
theorem run_abort_of_getServers_failure {body : String}
    (h : (getServers body).isFailure = true) (staticConfig rules : String) :
    runModel staticConfig rules body = (staticConfig, false) := by
  unfold runModel runModelWith
  cases hg : getServers body with
  | ok s => rw [hg] at h; simp [PResult.isFailure] at h
  | err e => rfl
  | panicked m => rfl

/-- If any line of the payload fails to parse, the parse loop fails. -/
theorem parseLines_fails_of_mem {ls : List String} {l : String} (hmem : l ∈ ls)
    (hl : (Server.fromStr l).isFailure = true) :
    (parseLines ls).isFailure = true := by
  induction ls with
  | nil => cases hmem
  | cons hd tl ih =>
      unfold parseLines
      cases hhd : Server.fromStr hd with
      | ok s =>
          rcases List.mem_cons.mp hmem with rfl | hmemtl
          · rw [hhd] at hl; simp [PResult.isFailure] at hl
          · cases htl : parseLines tl with
            | ok ss =>
                have hih := ih hmemtl
                rw [htl] at hih
                simp [PResult.isFailure] at hih
            | err e => rfl
            | panicked m => rfl
      | err e => rfl
      | panicked m => rfl

theorem reProtoCaptures_proto {s p b : String}
    (h : reProtoCaptures s = some (p, b)) : p = "ss" ∨ p = "vmess" := by
  simp only [reProtoCaptures] at h
  split at h
  · simp only [Option.some.injEq, Prod.mk.injEq] at h
    exact Or.inl h.1.symm
  · split at h
    · simp only [Option.some.injEq, Prod.mk.injEq] at h
      exact Or.inr h.1.symm
    · cases h

theorem parseSSBody_not_err (b : String) : (parseSSBody b).isReturnedErr = false := by
  unfold parseSSBody
  repeat' split
  all_goals rfl

theorem parseVmessBody_not_err (b : String) : (parseVmessBody b).isReturnedErr = false := by
  unfold parseVmessBody
  repeat' split
  all_goals rfl

theorem parseI32_range {s : String} {v : Int} (h : parseI32 s = some v) :
    -(2 ^ 31) ≤ v ∧ v ≤ 2 ^ 31 - 1 := by
  unfold parseI32 at h
  split at h
  · cases hn : decNat _ with
    | none => rw [hn] at h; simp at h
    | some n =>
        rw [hn] at h
        simp only [Option.bind_eq_bind, Option.some_bind] at h
        split at h
        · simp only [Option.some.injEq] at h
          omega
        · cases h
  · cases hn : decNat _ with
    | none => rw [hn] at h; simp at h
    | some n =>
        rw [hn] at h
        simp only [Option.bind_eq_bind, Option.some_bind] at h
        split at h
        · simp only [Option.some.injEq] at h
          omega
        · cases h
  · cases hn : decNat _ with
    | none => rw [hn] at h; simp at h
    | some n =>
        rw [hn] at h
        simp only [Option.bind_eq_bind, Option.some_bind] at h
        split at h
        · simp only [Option.some.injEq] at h
          omega
        · cases h

theorem parseSSBody_port_range {b : String} {d : ShadowSocks}
    (h : parseSSBody b = .ok (.ss d)) :
    -(2 ^ 31) ≤ d.port ∧ d.port ≤ 2 ^ 31 - 1 := by
  unfold parseSSBody at h
  repeat' split at h
  all_goals try simp only [reduceCtorEq] at h
  all_goals simp only [PResult.ok.injEq, Server.ss.injEq] at h
  all_goals subst h
  all_goals exact parseI32_range (by assumption)

theorem parseVmessBody_not_ss {b : String} {d : ShadowSocks} :
    parseVmessBody b ≠ .ok (.ss d) := by
  unfold parseVmessBody
  repeat' split
  all_goals simp

theorem findCountry_mem {cs : List Char} {t : String}
    (h : findCountry cs = some t) : t ∈ countryTokens := by
  induction cs with
  | nil => cases h
  | cons c rest ih =>
      unfold findCountry at h
      cases hf : countryTokens.find? (fun u => List.isPrefixOf u.toList (c :: rest)) with
      | none => rw [hf] at h; exact ih h
      | some u =>
          rw [hf] at h
          cases h
          exact List.mem_of_find?_eq_some hf

theorem classify_mem (name : String) :
    classify name ∈ ["香港", "美国", "新加坡", "台湾", "日本", "others"] := by
  unfold classify
  cases hf : findCountry name.toList with
  | none => simp [Option.getD]
  | some t =>
      have ht := findCountry_mem hf
      simp only [Option.getD]
      revert ht
      unfold countryTokens
      intro ht
      simp only [List.mem_cons] at ht ⊢
      tauto

theorem countryEn_isSome_of_classify (name : String) :
    (countryEn (classify name)).isSome = true := by
  have h := classify_mem name
  simp only [List.mem_cons, List.not_mem_nil, or_false] at h
  rcases h with h | h | h | h | h | h <;> rw [h] <;> decide

theorem addToGroup_keys {g : Groups} {k v : String} {x : String}
    (h : x ∈ (addToGroup g k v).map Prod.fst) :
    x ∈ g.map Prod.fst ∨ x = k := by
  induction g with
  | nil =>
      right
      unfold addToGroup at h
      simp only [List.map_cons, List.map_nil, List.mem_cons, List.not_mem_nil, or_false] at h
      exact h
  | cons p rest ih =>
      obtain ⟨k', vs⟩ := p
      unfold addToGroup at h
      by_cases hk : k' = k
      · rw [if_pos hk] at h
        simp only [List.map_cons, List.mem_cons] at h ⊢
        tauto
      · rw [if_neg hk] at h
        simp only [List.map_cons, List.mem_cons] at h ⊢
        rcases h with rfl | h
        · tauto
        · rcases ih h with h' | h' <;> tauto

theorem groups_keys_classified {servers : List Server} {g₀ : Groups}
    (h₀ : ∀ x ∈ g₀.map Prod.fst, (countryEn x).isSome = true) :
    ∀ x ∈ (servers.foldl (fun g s => addToGroup g (classify s.name) s.name) g₀).map Prod.fst,
      (countryEn x).isSome = true := by
  induction servers generalizing g₀ with
  | nil => simpa using h₀
  | cons s rest ih =>
      simp only [List.foldl_cons]
      apply ih
      intro x hx
      rcases addToGroup_keys hx with h | rfl
      · exact h₀ x h
      · exact countryEn_isSome_of_classify s.name

theorem writeProxies_keys_classified (servers : List Server) :
    ∀ x ∈ (writeProxies servers).2.map Prod.fst, (countryEn x).isSome = true := by
  unfold writeProxies
  exact groups_keys_classified (by simp)

theorem translateGroups_isSome {order : List (String × List String)}
    (h : ∀ x ∈ order.map Prod.fst, (countryEn x).isSome = true) :
    (translateGroups order).isSome = true := by
  induction order with
  | nil => rfl
  | cons p rest ih =>
      obtain ⟨k, v⟩ := p
      have hk : (countryEn k).isSome = true := h k (by simp)
      unfold translateGroups
      cases he : countryEn k with
      | none => rw [he] at hk; cases hk
      | some en =>
          have hr : (translateGroups rest).isSome = true :=
            ih (fun x hx => h x (by simp [hx]))
          cases ht : translateGroups rest with
          | none => rw [ht] at hr; cases hr
          | some tl => simp [he, ht]

theorem writeRules_success {order : List (String × List String)}
    (h : ∀ x ∈ order.map Prod.fst, (countryEn x).isSome = true) (rules : String) :
    (writeRules order rules).2 = true := by
  have hs := translateGroups_isSome h
  unfold writeRules proxyGroupsSection
  cases ht : translateGroups order with
  | none => rw [ht] at hs; cases hs
  | some tgs => simp

theorem fromStr_not_returned_err (s : String) :
    (Server.fromStr s).isReturnedErr = false := by
  unfold Server.fromStr
  cases hp : reProtoCaptures s with
  | none => rfl
  | some pb =>
      obtain ⟨p, b⟩ := pb
      rcases reProtoCaptures_proto hp with rfl | rfl
      · exact parseSSBody_not_err b
      · exact parseVmessBody_not_err b

theorem fromStr_ss_port_range {s : String} {d : ShadowSocks}
    (h : Server.fromStr s = .ok (.ss d)) :
    -(2 ^ 31) ≤ d.port ∧ d.port ≤ 2 ^ 31 - 1 := by
  unfold Server.fromStr at h
  cases hp : reProtoCaptures s with
  | none => rw [hp] at h; cases h
  | some pb =>
      obtain ⟨p, b⟩ := pb
      rw [hp] at h
      rcases reProtoCaptures_proto hp with rfl | rfl
      · exact parseSSBody_port_range h
      · exact absurd h parseVmessBody_not_ss

/-! ### The claims -/

/-- C1 (counterexample): the claim says a failed run leaves the output file
with nothing in it, "neither the static preamble nor any proxy entries". At
the body `"ZnRwOi8vZm9v"` (base64 of `ftp://foo`, whose single line fails to
parse) the aborted run's file holds exactly the static preamble — here the
stand-in `"STATIC"`, six bytes, not the empty file the claim requires —
because `write_static_configs` runs before `get_servers`. -/
theorem c1_counterexample :
    runModel "STATIC" "RULES" "ZnRwOi8vZm9v" = ("STATIC", false)
      ∧ "STATIC".length = 6 := by
  constructor
  · decide
  · decide

/-- C1 (amended): when the envelope decode or any line parse fails, the run
aborts with no proxy entries and no selector groups written, but the static
preamble has already been written: the output file contains exactly the
static preamble. -/
theorem c1_abort_leaves_only_preamble (staticConfig rules body : String)
    (h : (getServers body).isFailure = true) :
    runModel staticConfig rules body = (staticConfig, false) :=
  run_abort_of_getServers_failure h staticConfig rules

/-- C1 (witness for the amended claim), at the aborting body
`base64("ftp://foo")`. -/
theorem c1_abort_witness :
    runModel "static preamble" "rules block" "ZnRwOi8vZm9v"
      = ("static preamble", false) :=
  c1_abort_leaves_only_preamble "static preamble" "rules block" "ZnRwOi8vZm9v"
    (by decide)

/-- C2: emission of the per-country selector groups iterates a `HashMap`,
so the emitted bytes are a function of the iteration order, not of the group
table alone: the same two-bucket table emitted in its two possible iteration
orders gives different output. A Rust `HashMap`'s iteration order varies
between processes (randomized hasher), so two runs over the same input can
produce either order; byte-identical output is not guaranteed. -/
theorem c2_emission_depends_on_iteration_order :
    ((writeRules [("香港", ["a"]), ("美国", ["b"])] "R").1
      == (writeRules [("美国", ["b"]), ("香港", ["a"])] "R").1) = false := by
  decide

/-- C3 (counterexample): the claim puts the three fixed groups `Unmatched`,
`Choice`, `telegram` after the country buckets; the source writes `Unmatched`
before the country buckets. On the one-bucket table `[("香港", ["A"])]` the
claimed section text differs from the emitted one. -/
theorem c3_counterexample :
    claimedGroupsSection [("香港", ["A"])]
        = some ("\nproxy-groups:\n" ++ directLine ++ rejectLine ++
            groupLine "HongKong" "'A'" ++ unmatchedLine ++ choiceLine ++ telegramLine)
      ∧ ((proxyGroupsSection [("香港", ["A"])]).1
          == (claimedGroupsSection [("香港", ["A"])]).getD "") = false := by
  constructor
  · decide
  · decide

/-- C3 (amended): the proxy-groups section consists, in order, of the two
selector groups `Direct` and `Reject`, then the fixed group `Unmatched`, then
one selector group per populated country bucket (tag mapped to its fixed
English label, member names quoted and joined by `", "` in bucket order, the
buckets in the map's iteration order), then the two fixed trailing groups
`Choice` and `telegram`. -/
theorem c3_groups_section_order (order : List (String × List String))
    (tgs : List (String × String)) (rules : String)
    (h : translateGroups order = some tgs) :
    writeRules order rules
      = ("\nproxy-groups:\n" ++ directLine ++ rejectLine ++ unmatchedLine ++
          String.join (tgs.map (fun p => groupLine p.1 p.2)) ++
          choiceLine ++ telegramLine ++ "\nrules:\n" ++ rules, true) := by
  unfold writeRules proxyGroupsSection
  rw [h]
  rfl

/-- C3 (witness for the amended claim), on a table with one populated
bucket. -/
theorem c3_groups_section_order_witness :
    writeRules [("香港", ["A"])] "R"
      = ("\nproxy-groups:\n" ++ directLine ++ rejectLine ++ unmatchedLine ++
          String.join ([("HongKong", "'A'")].map (fun p => groupLine p.1 p.2)) ++
          choiceLine ++ telegramLine ++ "\nrules:\n" ++ "R", true) :=
  c3_groups_section_order [("香港", ["A"])] [("HongKong", "'A'")] "R" (by decide)

/-- C4: parsing the line `ss://YWVzLTI1Ni1nY206cGFzcw==@1.2.3.4:8388#HK-1`
succeeds and yields exactly one ShadowSocks descriptor with name `HK-1`,
host `1.2.3.4`, port 8388, cipher `aes-256-gcm`, password `pass`, udp
true. -/
theorem c4_ss_scenario :
    Server.fromStr "ss://YWVzLTI1Ni1nY206cGFzcw==@1.2.3.4:8388#HK-1"
      = .ok (.ss ⟨"HK-1", "1.2.3.4", 8388, "aes-256-gcm", "pass", true⟩) := by
  decide

/-- C5: on a line with an unrecognized scheme such as `ftp://foo` the parser
does not return an error value: `RE_PROTO.captures(s).unwrap()` panics, and
the `Err("unexpected proto")` arm is unreachable on every input (the regex
only ever captures `ss` or `vmess`), so no run ever sees a returned
`UnsupportedSchemeError`. -/
theorem c5_unsupported_scheme_panics :
    Server.fromStr "ftp://foo" = .panicked "proto regex: no captures"
      ∧ ∀ s : String, (Server.fromStr s).isReturnedErr = false :=
  ⟨by decide, fromStr_not_returned_err⟩

/-- C6: classification is total with values in the closed six-tag domain
(and deterministic, being a pure function of the name); every tag it
produces translates in the emitter's country `match`, so for any descriptor
sequence and any iteration order of its group table the emitter's
`unimplemented!("countries unknown")` branch is unreachable and `write_rules`
completes. -/
theorem c6_classifier_closed_emitter_safe :
    (∀ name : String,
        classify name ∈ ["香港", "美国", "新加坡", "台湾", "日本", "others"])
      ∧ (∀ name : String, (countryEn (classify name)).isSome = true)
      ∧ ∀ (servers : List Server) (rules : String)
          (order : List (String × List String)),
          order.Perm (writeProxies servers).2 → (writeRules order rules).2 = true := by
  refine ⟨classify_mem, countryEn_isSome_of_classify, fun servers rules order hperm => ?_⟩
  apply writeRules_success _ rules
  intro x hx
  exact writeProxies_keys_classified servers x ((hperm.map Prod.fst).mem_iff.mp hx)

/-- C6 (witness): a concrete name and a concrete emitter run. -/
theorem c6_witness :
    classify "香港-1" ∈ ["香港", "美国", "新加坡", "台湾", "日本", "others"]
      ∧ (countryEn (classify "香港-1")).isSome = true
      ∧ (writeRules [] "rules").2 = true :=
  ⟨c6_classifier_closed_emitter_safe.1 "香港-1",
   c6_classifier_closed_emitter_safe.2.1 "香港-1",
   c6_classifier_closed_emitter_safe.2.2 [] "rules" [] (List.Perm.refl [])⟩

/-- C7 (counterexample): the claim says every successfully constructed
descriptor has a port in `[1, 65535]`; the line
`ss://YWVzLTI1Ni1nY206cGFzcw==@h:0#n` is parsed successfully into a
ShadowSocks descriptor whose port is 0, outside that range (no range check
exists beyond `i32` parsing). -/
theorem c7_counterexample :
    Server.fromStr "ss://YWVzLTI1Ni1nY206cGFzcw==@h:0#n"
        = .ok (.ss ⟨"n", "h", 0, "aes-256-gcm", "pass", true⟩)
      ∧ decide ((1 : Int) ≤ 0 ∧ (0 : Int) ≤ 65535) = false := by
  constructor
  · decide
  · decide

/-- C7 (amended): a successfully constructed ShadowSocks descriptor's port is
any value accepted by `<i32 as FromStr>` — an integer in
`[-2^31, 2^31 - 1]`, with no `[1, 65535]` check — and a Vmess descriptor's
port is an arbitrary unvalidated string (here the non-numeric `"abc"`,
from the link `vmess://base64({"v":"2","ps":"n","add":"h","port":"abc",
"id":"u","aid":"0"})`). -/
theorem c7_port_unchecked :
    (∀ (s : String) (d : ShadowSocks), Server.fromStr s = .ok (.ss d) →
        -(2 ^ 31) ≤ d.port ∧ d.port ≤ 2 ^ 31 - 1)
      ∧ Server.fromStr
          "vmess://eyJ2IjoiMiIsInBzIjoibiIsImFkZCI6ImgiLCJwb3J0IjoiYWJjIiwiaWQiOiJ1IiwiYWlkIjoiMCJ9"
          = .ok (.vmess ⟨"2", "n", "h", "abc", "u", "0"⟩) :=
  ⟨fun _ _ h => fromStr_ss_port_range h, by decide⟩

/-- C7 (witness for the amended claim), at the successfully parsed descriptor
of port 8388. -/
theorem c7_port_unchecked_witness :
    -(2 ^ 31) ≤ (8388 : Int) ∧ (8388 : Int) ≤ 2 ^ 31 - 1 :=
  c7_port_unchecked.1 "ss://YWVzLTI1Ni1nY206cGFzcw==@1.2.3.4:8388#HK-1"
    ⟨"HK-1", "1.2.3.4", 8388, "aes-256-gcm", "pass", true⟩ (by decide)

/-- C8 (counterexample): the claim says blank lines in the decoded payload
are skipped without failure. The body `"Cg=="` decodes to the text `"\n"`,
whose line sequence is the single blank line `""`; the decoder does not skip
it but feeds it to the parser, which panics. -/
theorem c8_counterexample :
    (base64Decode "Cg==").map latin1OfBytes = some "\n"
      ∧ envelopeLines "Cg==" = some [""]
      ∧ getServers "Cg==" = .panicked "proto regex: no captures" := by
  refine ⟨by decide, by decide, by decide⟩

/-- C8 (amended): blank lines are not skipped: every line of the decoded
payload, blank ones included, reaches the link parser, and a payload whose
decoded text contains a blank line always aborts the run (a blank line
matches no scheme prefix). -/
theorem c8_blank_line_aborts (body : String) (ls : List String)
    (h : envelopeLines body = some ls) (hmem : "" ∈ ls) :
    (getServers body).isFailure = true := by
  unfold getServers
  rw [h]
  exact parseLines_fails_of_mem hmem (by decide)

/-- C8 (witness for the amended claim), at the body `base64("\n")`. -/
theorem c8_blank_line_aborts_witness : (getServers "Cg==").isFailure = true :=
  c8_blank_line_aborts "Cg==" [""] (by decide) (by decide)

/-- C9: all lines, the first two included, are parsed before the two-entry
skip: a payload whose first or second line fails to parse aborts the whole
run (leaving only the static preamble), even though the first two
descriptors are excluded from the proxy list and the grouping — `skip(2)` is
applied after the parse loop, so `write_proxies` is unaffected by the first
two descriptors' contents. -/
theorem c9_first_two_parsed_before_skip :
    (∀ (staticConfig rules body l : String) (rest : List String),
        envelopeLines body = some (l :: rest) →
        (Server.fromStr l).isFailure = true →
        runModel staticConfig rules body = (staticConfig, false))
      ∧ (∀ (staticConfig rules body l1 l2 : String) (rest : List String),
          envelopeLines body = some (l1 :: l2 :: rest) →
          (Server.fromStr l2).isFailure = true →
          runModel staticConfig rules body = (staticConfig, false))
      ∧ ∀ (a b a' b' : Server) (rest : List Server),
          writeProxies (a :: b :: rest) = writeProxies (a' :: b' :: rest) := by
  refine ⟨fun staticConfig rules body l rest h hl => ?_,
          fun staticConfig rules body l1 l2 rest h hl => ?_,
          fun a b a' b' rest => rfl⟩
  · apply run_abort_of_getServers_failure _ staticConfig rules
    unfold getServers
    rw [h]
    exact parseLines_fails_of_mem (List.mem_cons_self l rest) hl
  · apply run_abort_of_getServers_failure _ staticConfig rules
    unfold getServers
    rw [h]
    exact parseLines_fails_of_mem (List.mem_cons_of_mem l1 (List.mem_cons_self l2 rest)) hl

/-- C9 (witness): a one-line payload whose first line is bad, and a two-line
payload whose second line is bad (`base64("ss://...#n\nftp://foo")`), both
abort leaving only the preamble; and the skip at concrete servers. -/
theorem c9_witness :
    runModel "S" "R" "ZnRwOi8vZm9v" = ("S", false)
      ∧ runModel "S" "R" "c3M6Ly9ZV1Z6TFRJMU5pMW5ZMjA2Y0dGemN3PT1AaDoxI24KZnRwOi8vZm9v"
          = ("S", false)
      ∧ writeProxies [.vmess ⟨"1", "a", "h", "1", "u", "0"⟩,
            .ss ⟨"b", "h", 1, "c", "p", true⟩]
          = writeProxies [.ss ⟨"x", "h", 2, "c", "p", true⟩,
            .vmess ⟨"1", "y", "h", "2", "u", "0"⟩] :=
  ⟨c9_first_two_parsed_before_skip.1 "S" "R" "ZnRwOi8vZm9v" "ftp://foo" []
      (by decide) (by decide),
   c9_first_two_parsed_before_skip.2.1 "S" "R"
      "c3M6Ly9ZV1Z6TFRJMU5pMW5ZMjA2Y0dGemN3PT1AaDoxI24KZnRwOi8vZm9v"
      "ss://YWVzLTI1Ni1nY206cGFzcw==@h:1#n" "ftp://foo" [] (by decide) (by decide),
   c9_first_two_parsed_before_skip.2.2 _ _ _ _ []⟩

/-- C10: both serializers splice the descriptor's name verbatim between
single quotes with no escaping or sanitization — every rendered entry is the
fixed prefix `{ name: '`, the name's characters unchanged, a closing quote
and the remaining fields; in particular a name containing a single quote and
a brace is emitted with those characters intact (producing, as here,
ill-formed quoting). -/
theorem c10_name_inserted_verbatim :
    (∀ d : ShadowSocks, ∃ rest : String,
        ShadowSocks.toString d = "\x7b name: '" ++ d.name ++ "'" ++ rest)
      ∧ (∀ v : Vmess, ∃ rest : String,
          Vmess.toString v = "\x7b name: '" ++ v.name ++ "'" ++ rest)
      ∧ ShadowSocks.toString ⟨"a'\x7db", "h", 1, "c", "p", true⟩
          = "\x7b name: 'a'\x7db', type: ss, server: h, port: 1, cipher: c, password: p, udp: true \x7d" := by
  refine ⟨fun d => ⟨", type: ss, server: " ++ d.host ++ ", port: " ++
      ToString.toString d.port ++ ", cipher: " ++ d.cipher ++ ", password: " ++
      d.password ++ ", udp: " ++ ToString.toString d.udp ++ " \x7d", ?_⟩,
    fun v => ⟨", type: vmess, server: " ++ v.host ++ ", port: " ++ v.port ++
      ", uuid: " ++ v.uuid ++ ", alterId: " ++ v.alter_id ++
      ", cipher: auto, udp: true \x7d", ?_⟩, by decide⟩
  · apply string_eq_of_data
    simp only [ShadowSocks.toString, string_data_append, List.append_assoc]
    rfl
  · apply string_eq_of_data
    simp only [Vmess.toString, string_data_append, List.append_assoc]
    rfl

end ExtractClash
